import Mathlib

/-!
Verification of the International Number Tracker against its design spec.

The repository's presentation layer is JavaScript (`web/js/api.js`,
`web/js/app.js`, `web/js/export.js`, `web/js/charts.js`); the Flask/Python
core (`app.py`, `web/api/app.py`) referenced by the README is not part of
the source tree, so the repository/normalizer/import pipeline is modelled
from the spec where needed (each such definition says so in its doc
comment).  All JavaScript logic cited by the claims is embedded directly.
-/

namespace NumberTracker

/-! ## Embedding of `web/js/api.js` (`APIUtils`) -/

/-- A character kept by the cleaning step `phoneNumber.replace(/[^\d+]/g, '')`:
ASCII digits and the plus sign. -/
def keepPhoneChar (c : Char) : Bool := c.isDigit || c = '+'

/-- `phoneNumber.replace(/[^\d+]/g, '')` from `APIUtils.isValidPhoneFormat`. -/
def cleanPhone (s : String) : String := String.mk (s.data.filter keepPhoneChar)

/-- `\d*` check over a character list (JS `\d` is `[0-9]`). -/
def digitsOnly (l : List Char) : Bool := l.all Char.isDigit

/-- Regex `/^\+234\d{10}$/` from `APIUtils.isValidPhoneFormat`. -/
def patIntlPlus (c : List Char) : Bool :=
  decide (c.take 4 = ['+', '2', '3', '4'] ∧ (c.drop 4).length = 10 ∧
    digitsOnly (c.drop 4) = true)

/-- Regex `/^234\d{10}$/` from `APIUtils.isValidPhoneFormat`. -/
def patIntlBare (c : List Char) : Bool :=
  decide (c.take 3 = ['2', '3', '4'] ∧ (c.drop 3).length = 10 ∧
    digitsOnly (c.drop 3) = true)

/-- Regex `/^0\d{10}$/` from `APIUtils.isValidPhoneFormat`. -/
def patLocalZero (c : List Char) : Bool :=
  decide (c.take 1 = ['0'] ∧ (c.drop 1).length = 10 ∧ digitsOnly (c.drop 1) = true)

/-- Regex `/^\d{10}$/` from `APIUtils.isValidPhoneFormat`. -/
def patLocalBare (c : List Char) : Bool :=
  decide (c.length = 10 ∧ digitsOnly c = true)

/-- `APIUtils.isValidPhoneFormat` (`web/js/api.js` lines 358-373): returns
`false` on an empty input, otherwise strips every character other than
digits and `+` and tests the four accepted shapes. -/
def isValidPhoneFormat (s : String) : Bool :=
  if s = "" then false
  else
    let c := (cleanPhone s).data
    patIntlPlus c || patIntlBare c || patLocalZero c || patLocalBare c

/-- The error message produced by `PhoneTrackerAPI.request` on a non-ok HTTP
response: `new Error(errorData.error || 'HTTP error! status: ' + status)`.
The thrown value carries only this message string. -/
def requestError (status : Nat) (errorField : Option String) : String :=
  match errorField with
  | some e => if e = "" then "HTTP error! status: " ++ toString status else e
  | none => "HTTP error! status: " ++ toString status

/-! ## Embedding of `web/js/export.js` (`PhoneTrackerExport`) -/

/-- The record shape the export module receives from the API: the fields
named by `defaultFields` plus the `is_valid` flag used by
`generateSummaryStats`.  All scalar fields are strings, as in the JSON the
API delivers. -/
structure ExportRecord where
  phone_number : String
  carrier : String
  region : String
  timezone : String
  phone_type : String
  date_added : String
  last_tracked : String
  notes : String
  is_valid : Bool
deriving DecidableEq

/-- `stringValue.replace(/"/g, '""')` from `formatCSVValue`. -/
def escQuotes : List Char → List Char
  | [] => []
  | c :: rest => if c = '"' then '"' :: '"' :: escQuotes rest else c :: escQuotes rest

/-- The quoting condition of `formatCSVValue` with the default delimiter:
the value contains `,`, `"`, or a newline. -/
def needsQuote (v : List Char) : Bool :=
  v.any (fun c => c = ',' || c = '"' || c = '\n')

/-- `formatCSVValue` on a character list: wrap in double quotes, doubling
inner quotes, when the value contains the delimiter, a quote, or a
newline; otherwise emit it verbatim. -/
def fmtCSVVal (v : List Char) : List Char :=
  if needsQuote v then '"' :: (escQuotes v ++ ['"']) else v

/-- `PhoneTrackerExport.formatCSVValue` (`web/js/export.js` lines 357-370)
for string values and the default delimiter `,`. -/
def formatCSVValue (value : String) : String := String.mk (fmtCSVVal value.data)

/-- Word capitalization used by `formatCSVHeader`: underscores become
spaces and the first letter of each word is uppercased. -/
def capWords : Bool → List Char → List Char
  | _, [] => []
  | atStart, c :: rest =>
    let c' := if c = '_' then ' ' else c
    if c' = ' ' then ' ' :: capWords true rest
    else (if atStart then c'.toUpper else c') :: capWords false rest

/-- `PhoneTrackerExport.formatCSVHeader`: `field.replace(/_/g, ' ')` then
uppercase the first letter of each word. -/
def formatCSVHeader (field : String) : String := String.mk (capWords true field.data)

/-- The `defaultFields` array of `exportToCSV`. -/
def defaultFields : List String :=
  ["phone_number", "carrier", "region", "timezone",
   "phone_type", "date_added", "last_tracked", "notes"]

/-- `row[field] || ''` for the fields `exportToCSV` serializes: projection
of an `ExportRecord` by field name, empty for an unknown field. -/
def fieldValue (r : ExportRecord) (f : String) : String :=
  if f = "phone_number" then r.phone_number
  else if f = "carrier" then r.carrier
  else if f = "region" then r.region
  else if f = "timezone" then r.timezone
  else if f = "phone_type" then r.phone_type
  else if f = "date_added" then r.date_added
  else if f = "last_tracked" then r.last_tracked
  else if f = "notes" then r.notes
  else ""

/-- Cells joined by the delimiter after `formatCSVValue`, as in
`exportFields.map(...).join(delimiter)`. -/
def csvLine : List (List Char) → List Char
  | [] => []
  | [c] => fmtCSVVal c
  | c :: rest => fmtCSVVal c ++ ',' :: csvLine rest

/-- Cells joined by the delimiter with no value formatting, as in the
header line `exportFields.map(field => this.formatCSVHeader(field)).join(delimiter)`. -/
def joinComma : List (List Char) → List Char
  | [] => []
  | [c] => c
  | c :: rest => c ++ ',' :: joinComma rest

/-- Each row rendered by `csvLine` followed by `'\n'`, as the
`data.forEach` loop of `exportToCSV` appends `rowData + '\n'`. -/
def renderRows : List (List (List Char)) → List Char
  | [] => []
  | row :: rest => csvLine row ++ '\n' :: renderRows rest

/-- The header line of `exportToCSV`: the default fields through
`formatCSVHeader`, joined by the delimiter. -/
def csvHeaderLine : List Char :=
  joinComma ((defaultFields.map formatCSVHeader).map String.data)

/-- The cell contents of one record in the order of `defaultFields`. -/
def recordCells (r : ExportRecord) : List (List Char) :=
  (defaultFields.map (fieldValue r)).map String.data

/-- The full CSV blob `exportToCSV` downloads: header line, newline, then
every data row rendered and newline-terminated. -/
def csvBlob (data : List ExportRecord) : String :=
  String.mk (csvHeaderLine ++ '\n' :: renderRows (data.map recordCells))

/-- `PhoneTrackerExport.exportToCSV` (`web/js/export.js` lines 24-68) with
default options: throws `'No data to export'` when the record list is
empty, otherwise produces the CSV blob and reports `recordCount`. -/
def exportToCSV (data : List ExportRecord) : Except String (String × Nat) :=
  if data = [] then .error "No data to export"
  else .ok (csvBlob data, data.length)

/-- The `metadata` object of `exportToJSON`. -/
structure JSONMeta where
  total_records : Nat
  export_format : String
  generated_by : String
deriving DecidableEq

/-- The envelope object `exportToJSON` serializes. -/
structure JSONExport where
  export_date : String
  version : String
  application : String
  metadata : Option JSONMeta
  data : List ExportRecord
deriving DecidableEq

/-- `PhoneTrackerExport.exportToJSON` (`web/js/export.js` lines 71-109) on
a record array, with `includeMetadata` explicit and the export timestamp
`new Date().toISOString()` passed in as `now`.  A record array is never
falsy in JS, so the `'No data to export'` guard cannot fire here. -/
def exportToJSON (now : String) (data : List ExportRecord)
    (includeMetadata : Bool) : JSONExport :=
  { export_date := now
    version := "2.0.0"
    application := "Nigeria Phone Tracker - Professional Edition"
    metadata :=
      if includeMetadata then some ⟨data.length, "json", "Nigeria Phone Tracker"⟩
      else none
    data := data }

/-- Result of one `exportData` dispatch, by format. -/
inductive ExportResult where
  | csv (content : String) (recordCount : Nat)
  | json (doc : JSONExport) (recordCount : Nat)
  | pdf (recordCount : Nat)
  | excel (recordCount : Nat)
deriving DecidableEq

/-- Lower-casing used by `format.toLowerCase()`. -/
def lowerStr (s : String) : String := String.mk (s.data.map Char.toLower)

/-- The `exportFormats` array of the `PhoneTrackerExport` constructor. -/
def exportFormats : List String := ["csv", "json", "pdf", "excel"]

/-- `PhoneTrackerExport.exportData` (`web/js/export.js` lines 8-21): switch
on the lowercased format; an unsupported format throws
`Unsupported export format: <format>` (a plain `Error` whose only payload
is that message).  The PDF and Excel bodies are DOM/print side effects;
only their data guards and record counts are modelled (`exportToPDF`
accepts any array, `exportToExcel` throws on an empty one). -/
def exportData (format : String) (data : List ExportRecord) (now : String) :
    Except String ExportResult :=
  if lowerStr format = "csv" then (exportToCSV data).map (fun p => .csv p.1 p.2)
  else if lowerStr format = "json" then .ok (.json (exportToJSON now data true) data.length)
  else if lowerStr format = "pdf" then .ok (.pdf data.length)
  else if lowerStr format = "excel" then
    if data = [] then .error "No data to export" else .ok (.excel data.length)
  else .error ("Unsupported export format: " ++ format)

/-- Return value of `generateSummaryStats`: the early `{ total: 0,
message: 'No data available' }` object for an empty or non-array input,
or the full statistics object. -/
inductive SummaryStats where
  | noData (total : Nat) (message : String)
  | stats (total_records valid_numbers invalid_numbers : Nat)
      (carriers phone_types regions : List (String × Nat))
deriving DecidableEq

/-- `stats.carriers[carrier] = (stats.carriers[carrier] || 0) + 1`:
insert-or-increment on an insertion-ordered association list. -/
def bump : List (String × Nat) → String → List (String × Nat)
  | [], k => [(k, 1)]
  | (k', v) :: rest, k =>
    if k' = k then (k', v + 1) :: rest else (k', v) :: bump rest k

/-- `item.carrier || 'Unknown'` for string fields. -/
def orUnknown (s : String) : String := if s = "" then "Unknown" else s

/-- `PhoneTrackerExport.generateSummaryStats` (`web/js/export.js` lines
241-271): empty input returns the `noData` object; otherwise the total,
the valid/invalid filter counts, and the three frequency distributions
accumulated over the data in order. -/
def generateSummaryStats (data : List ExportRecord) : SummaryStats :=
  if data = [] then .noData 0 "No data available"
  else
    .stats data.length
      (data.filter (fun r => r.is_valid)).length
      (data.filter (fun r => !r.is_valid)).length
      (data.foldl (fun m r => bump m (orUnknown r.carrier)) [])
      (data.foldl (fun m r => bump m (orUnknown r.phone_type)) [])
      (data.foldl (fun m r => bump m (orUnknown r.region)) [])

/-- Total count of `SummaryStats` (`total` on the no-data object,
`total_records` otherwise). -/
def SummaryStats.totalOf : SummaryStats → Nat
  | .noData t _ => t
  | .stats t _ _ _ _ _ => t

/-- `valid_numbers`, zero on the no-data object. -/
def SummaryStats.validOf : SummaryStats → Nat
  | .noData _ _ => 0
  | .stats _ v _ _ _ _ => v

/-- `invalid_numbers`, zero on the no-data object. -/
def SummaryStats.invalidOf : SummaryStats → Nat
  | .noData _ _ => 0
  | .stats _ _ i _ _ _ => i

/-- The `carriers` distribution, empty on the no-data object. -/
def SummaryStats.carriersOf : SummaryStats → List (String × Nat)
  | .noData _ _ => []
  | .stats _ _ _ c _ _ => c

/-- The `phone_types` distribution, empty on the no-data object. -/
def SummaryStats.phoneTypesOf : SummaryStats → List (String × Nat)
  | .noData _ _ => []
  | .stats _ _ _ _ t _ => t

/-- The `regions` distribution, empty on the no-data object. -/
def SummaryStats.regionsOf : SummaryStats → List (String × Nat)
  | .noData _ _ => []
  | .stats _ _ _ _ _ g => g

/-- Sum of the counts of a frequency distribution. -/
def sumCounts (m : List (String × Nat)) : Nat := (m.map Prod.snd).sum

/-- Count stored under a key of a frequency distribution (0 when absent). -/
def lookupCount : List (String × Nat) → String → Nat
  | [], _ => 0
  | (k', v) :: rest, k => if k' = k then v else lookupCount rest k

/-! ## Spec-modelled core (the Flask/Python backend is not under `src/`) -/

/-- Modelled from the spec: `CanonicalNumber` (§3) of the backend core,
which is not present under `src/` — an immutable (country code, national
number) pair of digit strings. -/
structure Canonical where
  countryCode : String
  nationalNumber : String
deriving DecidableEq

/-- Modelled from the spec: the static numbering-plan table (§9, "static
lookup tables as global state") for the country codes the examples use —
country code digits paired with the national-number length of the plan. -/
def countryPlans : List (String × Nat) := [("234", 10), ("1", 10), ("44", 10)]

/-- All characters are ASCII digits. -/
def allDigits (s : String) : Bool := s.data.all Char.isDigit

/-- Modelled from the spec: resolution of an international digit string
against the numbering-plan table — the country code must prefix the
digits and the remainder must have the plan's national length. -/
def matchPlan (digits : List Char) : Option Canonical :=
  countryPlans.findSome? (fun p =>
    if p.1.data.isPrefixOf digits && decide (digits.length = p.1.length + p.2)
        && digitsOnly digits
    then some ⟨p.1, String.mk (digits.drop p.1.length)⟩ else none)

/-- Modelled from the spec: the Number Normalizer (§4.1) of the backend,
which is not present under `src/`.  Strips non-digit/non-plus characters;
fails when no digit remains; resolves a leading `+` or a doubled
country-code prefix through the plan table, and the region-specific local
formats (leading zero, bare national number) against the default region
Nigeria used throughout the frontend. -/
def normalize (raw : String) : Option Canonical :=
  let c := raw.data.filter keepPhoneChar
  if (c.filter Char.isDigit).isEmpty then none
  else
    match c with
    | '+' :: rest => matchPlan rest
    | _ =>
      if digitsOnly c && decide (c.length = 11) && decide (c.take 1 = ['0']) then
        some ⟨"234", String.mk (c.drop 1)⟩
      else if digitsOnly c && decide (c.length = 10) then some ⟨"234", String.mk c⟩
      else matchPlan c

/-- Modelled from the spec: the Validator (§4.2) — a canonical number is
valid when its country code has a plan and the national number has the
plan's length. -/
def isValidNumber (n : Canonical) : Bool :=
  countryPlans.any (fun p =>
    p.1 = n.countryCode && decide (n.nationalNumber.length = p.2)
      && allDigits n.nationalNumber)

/-- Modelled from the spec: the carrier lookup of the Enricher (§4.3),
deterministic from the static table; unknown prefixes degrade to
`"Unknown"` rather than failing. -/
def lookupCarrier (n : Canonical) : String :=
  if n.countryCode = "234" then
    if n.nationalNumber.startsWith "803" || n.nationalNumber.startsWith "806" then "MTN"
    else if n.nationalNumber.startsWith "805" then "Glo"
    else if n.nationalNumber.startsWith "802" then "Airtel"
    else "Unknown"
  else "Unknown"

/-- Modelled from the spec: the region lookup of the Enricher (§4.3). -/
def lookupRegion (n : Canonical) : String :=
  if n.countryCode = "234" then "Nigeria"
  else if n.countryCode = "1" then "United States"
  else if n.countryCode = "44" then "United Kingdom"
  else "Unknown"

/-- The error taxonomy of §7. -/
inductive CoreError where
  | parseFailure
  | invalidArgument
  | notFound
  | storageFailure
deriving DecidableEq

/-- Modelled from the spec: `TrackedRecord` (§3), the persisted entity
keyed by its canonical number. -/
structure TrackedRecord where
  phoneNumber : Canonical
  carrier : String
  region : String
  timezone : String
  phoneType : String
  dateAdded : Nat
  lastTracked : Nat
  notes : String
  isValid : Bool
deriving DecidableEq

/-- Modelled from the spec: the record built for a freshly tracked number
(Normalizer → Validator → Enricher output plus timestamps and notes). -/
def mkRecord (n : Canonical) (notes : String) (now : Nat) : TrackedRecord :=
  { phoneNumber := n
    carrier := lookupCarrier n
    region := lookupRegion n
    timezone := if n.countryCode = "234" then "Africa/Lagos" else "Unknown"
    phoneType := if isValidNumber n then "Mobile" else "Unknown"
    dateAdded := now
    lastTracked := now
    notes := notes
    isValid := isValidNumber n }

/-- The metadata refresh an upsert applies to an existing record: update
`lastTracked` and `notes` and refresh the derived fields, leaving the key
and `dateAdded` untouched (§4.4). -/
def refreshWith (r x : TrackedRecord) : TrackedRecord :=
  { x with
    lastTracked := r.lastTracked
    notes := r.notes
    carrier := r.carrier
    region := r.region
    timezone := r.timezone
    phoneType := r.phoneType
    isValid := r.isValid }

/-- Modelled from the spec: `Repository.upsert` (§4.4) — insert if the
canonical number is unseen, else update `lastTracked`/`notes` and refresh
metadata; reports whether the record was newly created. -/
def upsert (st : List TrackedRecord) (r : TrackedRecord) :
    List TrackedRecord × Bool :=
  if st.any (fun x => x.phoneNumber == r.phoneNumber) then
    (st.map (fun x => if x.phoneNumber == r.phoneNumber then refreshWith r x else x),
     false)
  else (st ++ [r], true)

/-- Modelled from the spec: the `track` operation of the external
interface (§6): raw input through the Normalizer, then an upsert of the
enriched record; a normalization failure is a `ParseError`. -/
def track (st : List TrackedRecord) (raw notes : String) (now : Nat) :
    Except CoreError (List TrackedRecord) :=
  match normalize raw with
  | none => .error .parseFailure
  | some n => .ok (upsert st (mkRecord n notes now)).1

/-- Display form of a canonical number used for searching. -/
def canonStr (n : Canonical) : String :=
  "+" ++ n.countryCode ++ n.nationalNumber

/-- Substring test on character lists. -/
def substrB (needle : List Char) : List Char → Bool
  | [] => needle.isEmpty
  | c :: rest => needle.isPrefixOf (c :: rest) || substrB needle rest

/-- Modelled from the spec: the case-insensitive search filter of `list`
(§4.4) across phone number, carrier, and notes; an empty term passes
everything. -/
def matchesSearch (term : String) (r : TrackedRecord) : Bool :=
  if term = "" then true
  else
    let q := (lowerStr term).data
    substrB q (lowerStr (canonStr r.phoneNumber)).data
      || substrB q (lowerStr r.carrier).data
      || substrB q (lowerStr r.notes).data

/-- Ordering relation of `list`: by `dateAdded` descending. -/
def dateGE (a b : TrackedRecord) : Prop := b.dateAdded ≤ a.dateAdded

instance : DecidableRel dateGE := fun a b =>
  inferInstanceAs (Decidable (b.dateAdded ≤ a.dateAdded))

instance : IsTotal TrackedRecord dateGE :=
  ⟨fun a b => by unfold dateGE; exact Nat.le_total b.dateAdded a.dateAdded⟩

instance : IsTrans TrackedRecord dateGE :=
  ⟨fun _ _ _ h1 h2 => by unfold dateGE at *; exact Nat.le_trans h2 h1⟩

/-- Records sorted by `dateAdded` descending. -/
def sortRecs (l : List TrackedRecord) : List TrackedRecord :=
  l.insertionSort dateGE

/-- Modelled from the spec: `Repository.list` (§4.4) — rejects
non-positive page or page size with `InvalidArgument`, otherwise filters,
orders by `dateAdded` descending, and returns the 1-indexed page slice (a
page past the end is an empty slice, not an error). -/
def listOp (st : List TrackedRecord) (page pageSize : Int) (term : String) :
    Except CoreError (List TrackedRecord) :=
  if page ≤ 0 ∨ pageSize ≤ 0 then .error .invalidArgument
  else
    .ok ((((sortRecs (st.filter (matchesSearch term))).drop
      ((page.toNat - 1) * pageSize.toNat)).take pageSize.toNat))

/-- The records of one page, empty when the call is rejected. -/
def pageRecords (st : List TrackedRecord) (page pageSize : Int) : List TrackedRecord :=
  ((listOp st page pageSize "").toOption).getD []

/-- Number of pages needed for `n` records at `k` per page. -/
def numPages (n k : Nat) : Nat := (n + k - 1) / k

/-- The unpaginated full listing (`list(1, ∞)` with an empty search). -/
def listAll (st : List TrackedRecord) : List TrackedRecord :=
  sortRecs (st.filter (matchesSearch ""))

/-- Modelled from the spec: `StatsSnapshot` (§4.4). -/
structure StatsSnapshot where
  total : Nat
  valid : Nat
  invalid : Nat
  recentActivity : Nat
  carriers : List (String × Nat)
  phoneTypes : List (String × Nat)
  regions : List (String × Nat)
deriving DecidableEq

/-- Modelled from the spec: `Repository.stats` (§4.4) — counts over the
record set and frequency distributions over carrier, phone type, and
region; `recentActivity` counts records whose `dateAdded` lies within the
last 24 hours (86400 seconds) of `now`. -/
def statsOf (now : Nat) (st : List TrackedRecord) : StatsSnapshot :=
  { total := st.length
    valid := (st.filter (fun r => r.isValid)).length
    invalid := (st.filter (fun r => !r.isValid)).length
    recentActivity := (st.filter (fun r => now ≤ r.dateAdded + 86400)).length
    carriers := st.foldl (fun m r => bump m (orUnknown r.carrier)) []
    phoneTypes := st.foldl (fun m r => bump m (orUnknown r.phoneType)) []
    regions := st.foldl (fun m r => bump m (orUnknown r.region)) [] }

/-- One entry of the import error list: row index and reason (§4.5). -/
structure ImportError where
  row : Nat
  reason : CoreError
deriving DecidableEq

/-- Modelled from the spec: the per-row worker of `importBatch` (§4.5),
carrying the absolute index of the next row.  Each row runs
Normalizer → Validator → Enricher → upsert independently; a `ParseError`
is recorded with the row index and later rows still run. -/
def importGo (st : List TrackedRecord) (rows : List String) (idx : Nat)
    (now : Nat) : List TrackedRecord × Nat × List ImportError :=
  match rows with
  | [] => (st, 0, [])
  | r :: rest =>
    match normalize r with
    | none =>
      let out := importGo st rest (idx + 1) now
      (out.1, out.2.1, ⟨idx, .parseFailure⟩ :: out.2.2)
    | some n =>
      let out := importGo (upsert st (mkRecord n "" now)).1 rest (idx + 1) now
      (out.1, out.2.1 + 1, out.2.2)

/-- Modelled from the spec: `importBatch` (§6, §4.5) — the backend import
endpoint is not under `src/` (`PhoneTrackerApp.importNumbers` only posts
the file to it).  Returns the final repository state, `importedCount`,
and the ordered error list. -/
def importBatch (st : List TrackedRecord) (rows : List String) (now : Nat) :
    List TrackedRecord × Nat × List ImportError :=
  importGo st rows 0 now

/-! ## A standard CSV parse (the import side of the round trip) -/

/-- Modelled from the spec: the field reader of a standard CSV parse (the
backend CSV import is not under `src/`) — an unquoted field runs to the
next delimiter or record end. -/
def parseRaw : List Char → List Char × List Char
  | [] => ([], [])
  | c :: rest =>
    if c = ',' ∨ c = '\n' then ([], c :: rest)
    else
      let out := parseRaw rest
      (c :: out.1, out.2)

/-- Modelled from the spec: the quoted-field reader of a standard CSV
parse, entered after the opening quote — a doubled quote is a literal
quote, a single quote closes the field. -/
def parseQuoted : List Char → List Char × List Char
  | [] => ([], [])
  | c :: rest =>
    if c = '"' then
      match rest with
      | [] => ([], [])
      | c2 :: rest2 =>
        if c2 = '"' then
          let out := parseQuoted rest2
          ('"' :: out.1, out.2)
        else ([], rest)
    else
      let out := parseQuoted rest
      (c :: out.1, out.2)

/-- One CSV field: quoted when it starts with a quote, raw otherwise. -/
def parseField : List Char → List Char × List Char
  | [] => ([], [])
  | c :: rest => if c = '"' then parseQuoted rest else parseRaw (c :: rest)

/-- Fuel-bounded field loop of one CSV record: fields separated by the
delimiter, ended by a newline or the end of input.  One unit of fuel is
spent per field, so fuel equal to the input length always suffices. -/
def parseRecordAux (fuel : Nat) (cs : List Char) : List (List Char) × List Char :=
  match fuel with
  | 0 => ([(parseField cs).1], (parseField cs).2)
  | fuel + 1 =>
    match (parseField cs).2 with
    | ',' :: rest =>
      let out := parseRecordAux fuel rest
      ((parseField cs).1 :: out.1, out.2)
    | '\n' :: rest => ([(parseField cs).1], rest)
    | other => ([(parseField cs).1], other)

/-- One CSV record with its remaining input. -/
def parseRecord (cs : List Char) : List (List Char) × List Char :=
  parseRecordAux cs.length cs

/-- Fuel-bounded record loop of the CSV parse; the fuel is instantiated
with the input length, which always suffices. -/
def parseCSVAux (fuel : Nat) (cs : List Char) : List (List (List Char)) :=
  match fuel with
  | 0 => []
  | fuel + 1 =>
    if cs = [] then []
    else
      let out := parseRecord cs
      out.1 :: parseCSVAux fuel out.2

/-- Modelled from the spec: a standard CSV parse of a whole document into
records of fields, matching the writer's conventions (comma delimiter,
newline record terminator, RFC-style double-quote escaping). -/
def parseCSV (s : String) : List (List String) :=
  (parseCSVAux s.data.length s.data).map (fun r => r.map String.mk)

/-- Modelled from the spec: the `(phoneNumber, notes)` extraction that
the import performs on a parsed CSV export — skip the header record, then
read the first (`phone_number`) and eighth (`notes`) field of each row. -/
def csvImportPairs (blob : String) : List (String × String) :=
  match parseCSV blob with
  | [] => []
  | _header :: rows => rows.map (fun r => (r.getD 0 "", r.getD 7 ""))

/-- Modelled from the spec: the `(phoneNumber, notes)` extraction that
the import performs on a parsed JSON export: the `data` array's pairs. -/
def jsonImportPairs (e : JSONExport) : List (String × String) :=
  e.data.map (fun r => (r.phone_number, r.notes))

/-! ## The CSV writer's escaping is inverted exactly by the parse -/

theorem parseRaw_nil : parseRaw [] = ([], []) := rfl

theorem parseRaw_stop (c : Char) (rest : List Char) (h : c = ',' ∨ c = '\n') :
    parseRaw (c :: rest) = ([], c :: rest) := by
  simp [parseRaw, h]

theorem parseRaw_step (c : Char) (rest : List Char) (h : ¬(c = ',' ∨ c = '\n')) :
    parseRaw (c :: rest) = (c :: (parseRaw rest).1, (parseRaw rest).2) := by
  simp [parseRaw, h]

theorem parseRaw_exact (f r : List Char)
    (hf : ∀ c ∈ f, ¬(c = ',' ∨ c = '\n'))
    (hr : r = [] ∨ ∃ c r2, r = c :: r2 ∧ (c = ',' ∨ c = '\n')) :
    parseRaw (f ++ r) = (f, r) := by
  induction f with
  | nil =>
    rcases hr with rfl | ⟨c, r2, rfl, hc⟩
    · simp [parseRaw_nil]
    · simpa using parseRaw_stop c r2 hc
  | cons a f2 ih =>
    have ha : ¬(a = ',' ∨ a = '\n') := hf a (by simp)
    rw [List.cons_append, parseRaw_step a (f2 ++ r) ha,
      ih (fun c hc => hf c (by simp [hc]))]

theorem parseQuoted_qq (rest : List Char) :
    parseQuoted ('"' :: '"' :: rest) =
      ('"' :: (parseQuoted rest).1, (parseQuoted rest).2) := by
  simp [parseQuoted]

theorem parseQuoted_close (c2 : Char) (rest2 : List Char) (h : ¬c2 = '"') :
    parseQuoted ('"' :: c2 :: rest2) = ([], c2 :: rest2) := by
  rw [parseQuoted.eq_def]
  simp [h]

theorem parseQuoted_step (c : Char) (rest : List Char) (h : ¬c = '"') :
    parseQuoted (c :: rest) = (c :: (parseQuoted rest).1, (parseQuoted rest).2) := by
  rw [parseQuoted.eq_def]
  simp [h]

theorem parseQuoted_exact (f r : List Char)
    (hr : ∀ c r2, r = c :: r2 → ¬c = '"') :
    parseQuoted (escQuotes f ++ '"' :: r) = (f, r) := by
  induction f with
  | nil =>
    match r with
    | [] => simp [escQuotes, parseQuoted]
    | c :: r2 =>
      have := hr c r2 rfl
      simpa [escQuotes] using parseQuoted_close c r2 this
  | cons a f2 ih =>
    by_cases ha : a = '"'
    · subst ha
      have hesc : escQuotes ('"' :: f2) = '"' :: '"' :: escQuotes f2 := by
        simp [escQuotes]
      rw [hesc, List.cons_append, List.cons_append, parseQuoted_qq, ih]
    · have hesc : escQuotes (a :: f2) = a :: escQuotes f2 := by
        simp [escQuotes, ha]
      rw [hesc, List.cons_append, parseQuoted_step a _ ha, ih]

theorem parseField_fmt (f r : List Char)
    (hr : r = [] ∨ ∃ c r2, r = c :: r2 ∧ (c = ',' ∨ c = '\n')) :
    parseField (fmtCSVVal f ++ r) = (f, r) := by
  by_cases hq : needsQuote f = true
  · have hrq : ∀ c r2, r = c :: r2 → ¬c = '"' := by
      rintro c r2 rfl
      rcases hr with h | ⟨c', r2', heq, hc⟩
      · cases h
      · cases heq
        rcases hc with rfl | rfl <;> decide
    have : fmtCSVVal f ++ r = '"' :: (escQuotes f ++ '"' :: r) := by
      simp [fmtCSVVal, hq]
    rw [this, parseField]
    · simpa using parseQuoted_exact f r hrq
  · have hnospec : ∀ c ∈ f, ¬(c = ',' ∨ c = '"' ∨ c = '\n') := by
      intro c hc
      intro habs
      apply hq
      simp only [needsQuote, List.any_eq_true]
      exact ⟨c, hc, by rcases habs with rfl | rfl | rfl <;> simp⟩
    have hfmt : fmtCSVVal f = f := by simp [fmtCSVVal, hq]
    rw [hfmt]
    match f with
    | [] =>
      rcases hr with rfl | ⟨c, r2, rfl, hc⟩
      · simp [parseField]
      · have hcq : ¬c = '"' := by rcases hc with rfl | rfl <;> decide
        rw [List.nil_append, parseField, if_neg hcq]
        exact parseRaw_stop c r2 hc
    | a :: f2 =>
      have haq : ¬a = '"' := by
        have := hnospec a (by simp)
        tauto
      rw [List.cons_append, parseField, if_neg haq, ← List.cons_append]
      exact parseRaw_exact (a :: f2) r
        (fun c hc => by have := hnospec c hc; tauto) hr

theorem parseRecordAux_line (row : List (List Char)) (rest : List Char)
    (hne : row ≠ []) :
    ∀ fuel, row.length ≤ fuel →
    parseRecordAux fuel (csvLine row ++ '\n' :: rest) = (row, rest) := by
  induction row with
  | nil => exact absurd rfl hne
  | cons f fs ih =>
    intro fuel hfuel
    match fuel with
    | 0 => simp at hfuel
    | m + 1 =>
      match fs with
      | [] =>
        have hfield : parseField (csvLine [f] ++ '\n' :: rest) = (f, '\n' :: rest) := by
          simpa [csvLine] using parseField_fmt f ('\n' :: rest) (by simp)
        simp [parseRecordAux, hfield]
      | g :: gs =>
        have hassoc : csvLine (f :: g :: gs) ++ '\n' :: rest =
            fmtCSVVal f ++ ',' :: (csvLine (g :: gs) ++ '\n' :: rest) := by
          simp [csvLine]
        have hfield : parseField (csvLine (f :: g :: gs) ++ '\n' :: rest) =
            (f, ',' :: (csvLine (g :: gs) ++ '\n' :: rest)) := by
          rw [hassoc]
          exact parseField_fmt f _ (Or.inr ⟨',', _, rfl, Or.inl rfl⟩)
        have hm : (g :: gs).length ≤ m := by simpa using hfuel
        simp [parseRecordAux, hfield, ih (by simp) m hm]

theorem csvLine_length_ge (row : List (List Char)) :
    row.length ≤ (csvLine row).length + 1 := by
  induction row with
  | nil => simp
  | cons f fs ih =>
    match fs with
    | [] => simp
    | g :: gs =>
      simp only [csvLine, List.length_append, List.length_cons]
      simp only [List.length_cons] at ih ⊢
      omega

theorem parseRecord_line (row : List (List Char)) (rest : List Char)
    (hne : row ≠ []) :
    parseRecord (csvLine row ++ '\n' :: rest) = (row, rest) := by
  apply parseRecordAux_line row rest hne
  have h1 := csvLine_length_ge row
  simp only [List.length_append, List.length_cons]
  omega

theorem parseCSVAux_nil (fuel : Nat) : parseCSVAux fuel [] = [] := by
  match fuel with
  | 0 => rfl
  | m + 1 => simp [parseCSVAux]

theorem renderRows_length_ge (rows : List (List (List Char))) :
    rows.length ≤ (renderRows rows).length := by
  induction rows with
  | nil => simp [renderRows]
  | cons row rest ih =>
    simp only [renderRows, List.length_append, List.length_cons]
    omega

theorem parseCSVAux_render (rows : List (List (List Char)))
    (hrows : ∀ row ∈ rows, row ≠ []) :
    ∀ fuel, rows.length ≤ fuel →
    parseCSVAux fuel (renderRows rows) = rows := by
  induction rows with
  | nil => intro fuel _; simp [renderRows, parseCSVAux_nil]
  | cons row rest ih =>
    intro fuel hfuel
    match fuel with
    | 0 => simp at hfuel
    | m + 1 =>
      have hne : ¬(renderRows (row :: rest) = []) := by
        simp [renderRows]
      have hrec : parseRecord (renderRows (row :: rest)) = (row, renderRows rest) := by
        simpa [renderRows] using
          parseRecord_line row (renderRows rest) (hrows row (by simp))
      simp only [parseCSVAux, if_neg hne, hrec]
      rw [ih (fun r hr => hrows r (by simp [hr])) m (by simpa using hfuel)]

/-- The header cells of the CSV export as character lists. -/
def headerCells : List (List Char) :=
  (defaultFields.map formatCSVHeader).map String.data

theorem csvHeaderLine_eq_csvLine : csvHeaderLine = csvLine headerCells := by
  decide

theorem recordCells_eq (r : ExportRecord) :
    recordCells r =
      [r.phone_number.data, r.carrier.data, r.region.data, r.timezone.data,
       r.phone_type.data, r.date_added.data, r.last_tracked.data, r.notes.data] := rfl

theorem strMk_data (s : String) : String.mk s.data = s := rfl

theorem parseCSV_csvBlob (data : List ExportRecord) :
    parseCSV (csvBlob data) =
      (headerCells :: data.map recordCells).map (fun r => r.map String.mk) := by
  have hblob : (csvBlob data).data =
      renderRows (headerCells :: data.map recordCells) := by
    show csvHeaderLine ++ '\n' :: renderRows (data.map recordCells) = _
    rw [csvHeaderLine_eq_csvLine]
    rfl
  have hrows : ∀ row ∈ headerCells :: data.map recordCells, row ≠ [] := by
    intro row hrow
    rcases List.mem_cons.1 hrow with rfl | hmem
    · decide
    · rcases List.mem_map.1 hmem with ⟨r, _, rfl⟩
      rw [recordCells_eq]
      simp
  unfold parseCSV
  rw [hblob, parseCSVAux_render _ hrows _ (by
    simpa [hblob] using renderRows_length_ge (headerCells :: data.map recordCells))]

theorem csvImportPairs_csvBlob (data : List ExportRecord) :
    csvImportPairs (csvBlob data) =
      data.map (fun r => (r.phone_number, r.notes)) := by
  unfold csvImportPairs
  rw [parseCSV_csvBlob]
  simp only [List.map_cons, List.map_map]
  apply List.map_congr_left
  intro r _
  simp only [Function.comp_apply, recordCells_eq]
  simp [strMk_data]

/-! ## Helper lemmas: frequency distributions and filters -/

theorem sumCounts_bump (m : List (String × Nat)) (k : String) :
    sumCounts (bump m k) = sumCounts m + 1 := by
  induction m with
  | nil => simp [bump, sumCounts]
  | cons p rest ih =>
    obtain ⟨k', v⟩ := p
    by_cases h : k' = k
    · simp [bump, h, sumCounts]
      omega
    · simp only [bump, if_neg h]
      simp only [sumCounts, List.map_cons, List.sum_cons] at ih ⊢
      omega

theorem sumCounts_fold {α : Type} (key : α → String) (data : List α) :
    ∀ m, sumCounts (data.foldl (fun acc r => bump acc (key r)) m) =
      sumCounts m + data.length := by
  induction data with
  | nil => intro m; simp
  | cons r rest ih =>
    intro m
    simp only [List.foldl_cons, List.length_cons, ih, sumCounts_bump]
    omega

theorem lookupCount_bump (m : List (String × Nat)) (k key : String) :
    lookupCount (bump m k) key =
      lookupCount m key + (if k = key then 1 else 0) := by
  induction m with
  | nil =>
    simp only [bump, lookupCount]
    by_cases h : k = key <;> simp [h]
  | cons p rest ih =>
    obtain ⟨k', v⟩ := p
    by_cases h : k' = k
    · subst h
      simp only [bump, if_pos rfl, lookupCount]
      by_cases h2 : k' = key <;> simp [h2]
    · simp only [bump, if_neg h, lookupCount]
      by_cases h2 : k' = key
      · subst h2
        simp only [if_pos rfl]
        have : ¬k = k' := fun he => h he.symm
        simp [this]
      · simp [h2, ih]

theorem lookupCount_fold {α : Type} (key : α → String) (data : List α)
    (target : String) :
    ∀ m, lookupCount (data.foldl (fun acc r => bump acc (key r)) m) target =
      lookupCount m target + data.countP (fun r => key r == target) := by
  induction data with
  | nil => intro m; simp
  | cons r rest ih =>
    intro m
    simp only [List.foldl_cons, List.countP_cons, ih, lookupCount_bump]
    by_cases h : key r = target
    · simp [h]
      omega
    · simp [h]

theorem filter_length_partition {α : Type} (p : α → Bool) (l : List α) :
    (l.filter p).length + (l.filter (fun a => !p a)).length = l.length := by
  induction l with
  | nil => rfl
  | cons a rest ih =>
    by_cases h : p a = true <;> simp [List.filter_cons, h] <;> omega

/-! ## Helper lemmas: upsert and the per-key filter -/

theorem filter_upsert_absent (st : List TrackedRecord) (r : TrackedRecord)
    (h : st.filter (fun x => x.phoneNumber == r.phoneNumber) = []) :
    (upsert st r).1.filter (fun x => x.phoneNumber == r.phoneNumber) = [r] := by
  have hany : st.any (fun x => x.phoneNumber == r.phoneNumber) = false := by
    rw [List.any_eq_false]
    intro x hx
    have := List.filter_eq_nil_iff.1 h x hx
    simpa using this
  simp [upsert, hany, List.filter_append, h]

theorem filter_refresh_map (st : List TrackedRecord) (r : TrackedRecord) :
    (st.map (fun x => if x.phoneNumber == r.phoneNumber then refreshWith r x else x)).filter
        (fun x => x.phoneNumber == r.phoneNumber) =
      (st.filter (fun x => x.phoneNumber == r.phoneNumber)).map
        (fun x => refreshWith r x) := by
  induction st with
  | nil => rfl
  | cons a rest ih =>
    simp only [beq_iff_eq] at ih ⊢
    by_cases hk : a.phoneNumber = r.phoneNumber
    · have hkey : (refreshWith r a).phoneNumber = r.phoneNumber := hk
      simp [List.map_cons, List.filter_cons, hk, hkey, ih]
    · simp [List.map_cons, List.filter_cons, hk, ih]

theorem filter_upsert_present (st : List TrackedRecord) (r r0 : TrackedRecord)
    (h : st.filter (fun x => x.phoneNumber == r.phoneNumber) = [r0]) :
    (upsert st r).1.filter (fun x => x.phoneNumber == r.phoneNumber) =
      [refreshWith r r0] := by
  have hmem : r0 ∈ st.filter (fun x => x.phoneNumber == r.phoneNumber) := by
    rw [h]; simp
  have hmem2 := List.mem_filter.1 hmem
  have hany : st.any (fun x => x.phoneNumber == r.phoneNumber) = true :=
    List.any_eq_true.2 ⟨r0, hmem2.1, hmem2.2⟩
  simp only [upsert, hany, if_true]
  rw [filter_refresh_map, h]
  rfl

/-! ## Helper lemmas: pagination -/

theorem joinPages {α : Type} (k : Nat) (hk : 0 < k) :
    ∀ (n : Nat) (l : List α), l.length = n →
    ((List.range (numPages n k)).map (fun i => (l.drop (i * k)).take k)).flatten = l := by
  intro n
  induction n using Nat.strong_induction_on with
  | _ n ih =>
    intro l hn
    rcases Nat.eq_zero_or_pos n with rfl | hpos
    · have : l = [] := List.length_eq_zero.1 hn
      subst this
      have hnp : numPages 0 k = 0 := Nat.div_eq_of_lt (by omega)
      simp [hnp]
    · have hsplit : numPages n k = (n - 1) / k + 1 := by
        have h1 : n + k - 1 = (n - 1) + k := by omega
        rw [numPages, h1, Nat.add_div_right _ hk]
      have htail : numPages (n - k) k = (n - 1) / k := by
        rcases Nat.lt_or_ge n (k + 1) with hlt | hge
        · have h0 : n - k = 0 := by omega
          rw [h0, numPages, Nat.div_eq_of_lt (by omega),
            Nat.div_eq_of_lt (by omega)]
        · have h1 : (n - k) + k - 1 = n - 1 := by omega
          rw [numPages, h1]
      rw [hsplit, List.range_succ_eq_map, List.map_cons, List.map_map,
        List.flatten_cons]
      have hzero : (l.drop (0 * k)).take k = l.take k := by simp
      rw [hzero]
      have hstep : ∀ i : Nat,
          (l.drop (Nat.succ i * k)).take k = ((l.drop k).drop (i * k)).take k := by
        intro i
        rw [Nat.succ_mul, List.drop_drop, Nat.add_comm]
      have hmapeq :
          (List.range ((n - 1) / k)).map ((fun i => (l.drop (i * k)).take k) ∘ Nat.succ) =
          (List.range ((n - 1) / k)).map (fun i => ((l.drop k).drop (i * k)).take k) := by
        apply List.map_congr_left
        intro i _
        exact hstep i
      rw [hmapeq, ← htail,
        ih (n - k) (by omega) (l.drop k) (by rw [List.length_drop, hn])]
      exact List.take_append_drop k l

theorem length_le_numPages_mul (n k : Nat) (hk : 0 < k) :
    n ≤ numPages n k * k := by
  rw [numPages]
  have h1 := Nat.div_add_mod (n + k - 1) k
  have h2 : (n + k - 1) % k < k := Nat.mod_lt _ hk
  have h3 : ((n + k - 1) / k) * k = k * ((n + k - 1) / k) := Nat.mul_comm _ _
  omega

/-! ## Helper lemmas: batch import -/

theorem importGo_spec (rows : List String) (now : Nat) :
    ∀ (st : List TrackedRecord) (idx : Nat),
    (importGo st rows idx now).2.1 = rows.countP (fun r => (normalize r).isSome) ∧
    (importGo st rows idx now).2.2 =
      ((rows.enumFrom idx).filter (fun p => (normalize p.2).isNone)).map
        (fun p => (⟨p.1, .parseFailure⟩ : ImportError)) ∧
    (importGo st rows idx now).1 =
      rows.foldl (fun s r =>
        match normalize r with
        | some n => (upsert s (mkRecord n "" now)).1
        | none => s) st := by
  induction rows with
  | nil => intro st idx; simp [importGo, List.enumFrom]
  | cons r rest ih =>
    intro st idx
    cases hn : normalize r with
    | none =>
      have := ih st (idx + 1)
      simp only [importGo, hn, List.countP_cons, List.enumFrom,
        List.filter_cons, List.foldl_cons]
      simp [hn, this.1, this.2.1, this.2.2]
    | some n =>
      have := ih (upsert st (mkRecord n "" now)).1 (idx + 1)
      simp only [importGo, hn, List.countP_cons, List.enumFrom,
        List.filter_cons, List.foldl_cons]
      simp [hn, this.1, this.2.1, this.2.2]

/-! ## Helper lemmas: the client-side format gate -/

theorem take_drop_split (pre c t : List Char) :
    c = pre ++ t ↔ (c.take pre.length = pre ∧ c.drop pre.length = t) := by
  constructor
  · rintro rfl
    exact ⟨List.take_left pre t, List.drop_left pre t⟩
  · rintro ⟨h1, h2⟩
    rw [← h1, ← h2, List.take_append_drop]

/-- The four accepted shapes of the cleaned input, as the claim states
them. -/
def gateShape (c : List Char) : Prop :=
  ∃ t : List Char, t.length = 10 ∧ digitsOnly t = true ∧
    (c = '+' :: '2' :: '3' :: '4' :: t ∨ c = '2' :: '3' :: '4' :: t ∨
     c = '0' :: t ∨ c = t)

theorem patterns_iff_gateShape (c : List Char) :
    (patIntlPlus c || patIntlBare c || patLocalZero c || patLocalBare c) = true ↔
      gateShape c := by
  simp only [Bool.or_eq_true, patIntlPlus, patIntlBare, patLocalZero,
    patLocalBare, decide_eq_true_eq]
  constructor
  · rintro (((⟨h1, h2, h3⟩ | ⟨h1, h2, h3⟩) | ⟨h1, h2, h3⟩) | ⟨h1, h2⟩)
    · exact ⟨c.drop 4, h2, h3, Or.inl
        ((take_drop_split ['+', '2', '3', '4'] c (c.drop 4)).2 ⟨h1, rfl⟩)⟩
    · exact ⟨c.drop 3, h2, h3, Or.inr (Or.inl
        ((take_drop_split ['2', '3', '4'] c (c.drop 3)).2 ⟨h1, rfl⟩))⟩
    · exact ⟨c.drop 1, h2, h3, Or.inr (Or.inr (Or.inl
        ((take_drop_split ['0'] c (c.drop 1)).2 ⟨h1, rfl⟩)))⟩
    · exact ⟨c, h1, h2, Or.inr (Or.inr (Or.inr rfl))⟩
  · rintro ⟨t, hlen, hdig, (rfl | rfl | rfl | rfl)⟩
    · exact Or.inl (Or.inl (Or.inl ⟨rfl, hlen, hdig⟩))
    · exact Or.inl (Or.inl (Or.inr ⟨rfl, hlen, hdig⟩))
    · exact Or.inl (Or.inr ⟨rfl, hlen, hdig⟩)
    · exact Or.inr ⟨hlen, hdig⟩

theorem isValid_eq_patterns (s : String) :
    isValidPhoneFormat s =
      (patIntlPlus (cleanPhone s).data || patIntlBare (cleanPhone s).data ||
       patLocalZero (cleanPhone s).data || patLocalBare (cleanPhone s).data) := by
  by_cases h : s = ""
  · subst h
    decide
  · simp [isValidPhoneFormat, h]

theorem filter_keep_of_digits (d : List Char) (h : d.all Char.isDigit = true) :
    d.filter keepPhoneChar = d := by
  apply List.filter_eq_self.2
  intro c hc
  have := List.all_eq_true.1 h c hc
  simp [keepPhoneChar, this]

theorem strMk_ne_empty (c : Char) (l : List Char) : ¬String.mk (c :: l) = "" := by
  intro h
  have := congrArg String.data h
  simp at this

theorem filter_search_empty (st : List TrackedRecord) :
    st.filter (matchesSearch "") = st := by
  simp [matchesSearch]

/-! ## Sample data for the witnesses -/

/-- A record whose notes contain the delimiter, quotes, and a newline. -/
def sampleRec : ExportRecord :=
  { phone_number := "+2348012345678"
    carrier := "MTN"
    region := "Nigeria"
    timezone := "Africa/Lagos"
    phone_type := "Mobile"
    date_added := "2024-01-01T00:00:00"
    last_tracked := "2024-01-02T00:00:00"
    notes := "line1\nwith \"quotes\", commas"
    is_valid := true }

/-- A record with an empty carrier field (the `Unknown` bucket) that is
invalid. -/
def sampleRec2 : ExportRecord :=
  { phone_number := "+15551234"
    carrier := ""
    region := ""
    timezone := ""
    phone_type := ""
    date_added := "2024-02-01T00:00:00"
    last_tracked := "2024-02-01T00:00:00"
    notes := ""
    is_valid := false }

/-- The canonical form of the Nigerian example number `+2348012345678`. -/
def nNG : Canonical := ⟨"234", "8012345678"⟩

/-- Repository state after tracking `+2348012345678` once into an empty
store. -/
def c1StateA : List TrackedRecord := (upsert [] (mkRecord nNG "first" 1)).1

/-- Repository state after re-tracking the same number with new notes. -/
def c1StateB : List TrackedRecord :=
  (upsert c1StateA (mkRecord nNG "Business contact" 2)).1

/-- Two tracked records with distinct timestamps, for the pagination
witness. -/
def c3State : List TrackedRecord :=
  [mkRecord nNG "a" 5, mkRecord ⟨"1", "2125551234"⟩ "b" 9]

/-! ## Claims -/

/-- C1: tracking a number and then tracking any textual rendering of the
same canonical number leaves exactly one stored record for it, whose
notes come from the second call and whose `dateAdded` is unchanged from
the value the first call left in place. -/
theorem claim_C1 (st : List TrackedRecord) (n : Canonical)
    (raw1 raw2 notes1 notes2 : String) (t1 t2 : Nat)
    (st1 st2 : List TrackedRecord)
    (h1 : normalize raw1 = some n) (h2 : normalize raw2 = some n)
    (hinv : (st.filter (fun x => x.phoneNumber == n)).length ≤ 1)
    (e1 : track st raw1 notes1 t1 = .ok st1)
    (e2 : track st1 raw2 notes2 t2 = .ok st2) :
    ∃ r1 r2,
      st1.filter (fun x => x.phoneNumber == n) = [r1] ∧
      st2.filter (fun x => x.phoneNumber == n) = [r2] ∧
      r2.notes = notes2 ∧ r2.dateAdded = r1.dateAdded := by
  rw [track, h1] at e1
  rw [track, h2] at e2
  have hst1 : st1 = (upsert st (mkRecord n notes1 t1)).1 := by
    cases e1; rfl
  have hst2 : st2 = (upsert st1 (mkRecord n notes2 t2)).1 := by
    cases e2; rfl
  have hcases : st.filter (fun x => x.phoneNumber == n) = [] ∨
      ∃ r0, st.filter (fun x => x.phoneNumber == n) = [r0] := by
    cases hsf : st.filter (fun x => x.phoneNumber == n) with
    | nil => exact Or.inl rfl
    | cons a tail =>
      cases tail with
      | nil => exact Or.inr ⟨a, rfl⟩
      | cons b rest =>
        rw [hsf] at hinv
        simp at hinv
  rcases hcases with hempty | ⟨r0, hone⟩
  · have f1 : st1.filter (fun x => x.phoneNumber == n) = [mkRecord n notes1 t1] := by
      rw [hst1]
      exact filter_upsert_absent st (mkRecord n notes1 t1) hempty
    have f2 : st2.filter (fun x => x.phoneNumber == n) =
        [refreshWith (mkRecord n notes2 t2) (mkRecord n notes1 t1)] := by
      rw [hst2]
      exact filter_upsert_present st1 (mkRecord n notes2 t2) (mkRecord n notes1 t1) f1
    exact ⟨mkRecord n notes1 t1, refreshWith (mkRecord n notes2 t2) (mkRecord n notes1 t1),
      f1, f2, rfl, rfl⟩
  · have f1 : st1.filter (fun x => x.phoneNumber == n) =
        [refreshWith (mkRecord n notes1 t1) r0] := by
      rw [hst1]
      exact filter_upsert_present st (mkRecord n notes1 t1) r0 hone
    have f2 : st2.filter (fun x => x.phoneNumber == n) =
        [refreshWith (mkRecord n notes2 t2) (refreshWith (mkRecord n notes1 t1) r0)] := by
      rw [hst2]
      exact filter_upsert_present st1 (mkRecord n notes2 t2)
        (refreshWith (mkRecord n notes1 t1) r0) f1
    exact ⟨refreshWith (mkRecord n notes1 t1) r0,
      refreshWith (mkRecord n notes2 t2) (refreshWith (mkRecord n notes1 t1) r0),
      f1, f2, rfl, rfl⟩

/-- C1 witness: tracking `+2348012345678` and then `+234 801 234 5678`
into an empty store. -/
theorem claim_C1_witness :
    normalize "+2348012345678" = some nNG ∧
    normalize "+234 801 234 5678" = some nNG ∧
    (∃ r1 r2,
      c1StateA.filter (fun x => x.phoneNumber == nNG) = [r1] ∧
      c1StateB.filter (fun x => x.phoneNumber == nNG) = [r2] ∧
      r2.notes = "Business contact" ∧ r2.dateAdded = r1.dateAdded) :=
  ⟨by decide, by decide,
    claim_C1 [] nNG "+2348012345678" "+234 801 234 5678" "first" "Business contact"
      1 2 c1StateA c1StateB (by decide) (by decide) (by decide) rfl rfl⟩

/-- C2 counterexample: with zero tracked records, the CSV export throws
`'No data to export'`, so the round trip does not even start; the claim
as stated ranges over every record set, including the empty one. -/
theorem claim_C2_counterexample :
    exportToCSV [] = Except.error "No data to export" := rfl

/-- C2 (amended to nonempty record sets for the CSV format): the CSV
export succeeds on a nonempty record set and a standard CSV parse of its
blob returns exactly the original `(phone_number, notes)` pairs — the
`formatCSVValue` escaping is inverted exactly, including for notes
containing delimiters, quotes, and newlines — and the JSON export's
`data` array round-trips the pairs for every record set. -/
theorem claim_C2 (data : List ExportRecord) (now : String) (h : data ≠ []) :
    exportToCSV data = .ok (csvBlob data, data.length) ∧
    csvImportPairs (csvBlob data) = data.map (fun r => (r.phone_number, r.notes)) ∧
    jsonImportPairs (exportToJSON now data true) =
      data.map (fun r => (r.phone_number, r.notes)) :=
  ⟨by simp [exportToCSV, h], csvImportPairs_csvBlob data, rfl⟩

/-- C2 witness: one record whose notes contain a newline, quotes, and
commas round-trips through the CSV export. -/
theorem claim_C2_witness :
    [sampleRec] ≠ [] ∧
    csvImportPairs (csvBlob [sampleRec]) =
      [sampleRec].map (fun r => (r.phone_number, r.notes)) :=
  ⟨by decide, (claim_C2 [sampleRec] "2026-01-01T00:00:00Z" (by decide)).2.1⟩

/-- C3: with an empty search term, the 1-indexed pages of size `k ≥ 1`
concatenate to the full record list ordered by `dateAdded` descending (a
permutation of the store, so every record appears exactly once); a page
past the end yields an empty slice; non-positive page or page size is
rejected with `InvalidArgument`. -/
theorem claim_C3 (st : List TrackedRecord) (k : Int) (hk : 1 ≤ k) :
    (((List.range (numPages st.length k.toNat)).map
        (fun i => pageRecords st (Int.ofNat (i + 1)) k)).flatten = sortRecs st ∧
      (sortRecs st).Perm st ∧
      List.Sorted dateGE (sortRecs st)) ∧
    (∀ p : Int, numPages st.length k.toNat < p.toNat →
      listOp st p k "" = .ok []) ∧
    (∀ p q : Int, p ≤ 0 ∨ q ≤ 0 →
      listOp st p q "" = .error .invalidArgument) := by
  have hkpos : 0 < k.toNat := by omega
  have hlen : (sortRecs st).length = st.length :=
    (List.perm_insertionSort dateGE st).length_eq
  refine ⟨⟨?_, List.perm_insertionSort dateGE st,
      List.sorted_insertionSort dateGE st⟩, ?_, ?_⟩
  · have hpage : ∀ i : Nat,
        pageRecords st (Int.ofNat (i + 1)) k =
          ((sortRecs st).drop (i * k.toNat)).take k.toNat := by
      intro i
      have hipos : (0 : Int) < Int.ofNat (i + 1) := Int.ofNat_pos.2 (Nat.succ_pos i)
      have hcond : ¬(Int.ofNat (i + 1) ≤ 0 ∨ k ≤ 0) := by
        push_neg
        exact ⟨hipos, by omega⟩
      simp only [pageRecords, listOp, if_neg hcond, filter_search_empty]
      simp [Except.toOption]
    have hmap :
        (List.range (numPages st.length k.toNat)).map
            (fun i => pageRecords st (Int.ofNat (i + 1)) k) =
          (List.range (numPages st.length k.toNat)).map
            (fun i => ((sortRecs st).drop (i * k.toNat)).take k.toNat) :=
      List.map_congr_left (fun i _ => hpage i)
    rw [hmap, ← hlen]
    exact joinPages k.toNat hkpos (sortRecs st).length (sortRecs st) rfl
  · intro p hp
    have hppos : 0 < p.toNat := Nat.lt_of_le_of_lt (Nat.zero_le _) hp
    have hcond : ¬(p ≤ 0 ∨ k ≤ 0) := by omega
    simp only [listOp, if_neg hcond, filter_search_empty]
    have hdrop : (sortRecs st).drop ((p.toNat - 1) * k.toNat) = [] := by
      apply List.drop_eq_nil_of_le
      rw [hlen]
      calc st.length ≤ numPages st.length k.toNat * k.toNat :=
            length_le_numPages_mul _ _ hkpos
        _ ≤ (p.toNat - 1) * k.toNat := Nat.mul_le_mul_right _ (by omega)
    rw [hdrop]
    simp
  · intro p q hpq
    simp [listOp, hpq]

/-- C3 witness: a two-record store paged with `k = 1`. -/
theorem claim_C3_witness :
    (1 : Int) ≤ 1 ∧
    ((List.range (numPages c3State.length (1 : Int).toNat)).map
        (fun i => pageRecords c3State (Int.ofNat (i + 1)) 1)).flatten =
      sortRecs c3State :=
  ⟨by decide, (claim_C3 c3State 1 (by decide)).1.1⟩

/-- C4: the batch import processes rows independently — the imported
count is the number of rows that normalize, the error list is exactly the
rows that fail to parse keyed by their index in order, and the final
repository state folds in every successful row regardless of where
failures occur; the spec's example rows yield `importedCount = 2` and a
single `ParseError` at row 1. -/
theorem claim_C4 (st : List TrackedRecord) (rows : List String) (now : Nat) :
    (importBatch st rows now).2.1 = rows.countP (fun r => (normalize r).isSome) ∧
    (importBatch st rows now).2.2 =
      ((rows.enum.filter (fun p => (normalize p.2).isNone)).map
        (fun p => (⟨p.1, .parseFailure⟩ : ImportError))) ∧
    (importBatch st rows now).1 =
      rows.foldl (fun s r =>
        match normalize r with
        | some n => (upsert s (mkRecord n "" now)).1
        | none => s) st ∧
    (importBatch st ["+2348012345678", "not-a-number", "+12125551234"] now).2.1 = 2 ∧
    (importBatch st ["+2348012345678", "not-a-number", "+12125551234"] now).2.2 =
      [⟨1, .parseFailure⟩] := by
  obtain ⟨h1, h2, h3⟩ := importGo_spec rows now st 0
  obtain ⟨e1, e2, _⟩ :=
    importGo_spec ["+2348012345678", "not-a-number", "+12125551234"] now st 0
  refine ⟨h1, h2, h3, ?_, ?_⟩
  · show (importGo st _ 0 now).2.1 = 2
    rw [e1]
    decide
  · show (importGo st _ 0 now).2.2 = _
    rw [e2]
    decide

/-- C5 counterexample: `exportData` with the CSV format and zero records
throws `'No data to export'` instead of producing an enveloped blob. -/
theorem claim_C5_counterexample :
    exportData "csv" [] "2026-01-01T00:00:00Z" = .error "No data to export" := rfl

/-- C5 (amended): the JSON export succeeds for every record set including
the empty one and its envelope carries the export timestamp, the schema
version `2.0.0`, and the record count; the CSV export succeeds only on a
nonempty record set and its blob is a bare header-plus-rows table with no
envelope (the record count is reported beside the blob, not inside it). -/
theorem claim_C5 (data : List ExportRecord) (now : String) :
    exportData "json" data now =
      .ok (.json (exportToJSON now data true) data.length) ∧
    (exportToJSON now data true).export_date = now ∧
    (exportToJSON now data true).version = "2.0.0" ∧
    (exportToJSON now data true).metadata =
      some ⟨data.length, "json", "Nigeria Phone Tracker"⟩ ∧
    (data ≠ [] → exportData "csv" data now =
      .ok (.csv (csvBlob data) data.length)) := by
  refine ⟨rfl, rfl, rfl, rfl, ?_⟩
  intro h
  have hok : exportToCSV data = .ok (csvBlob data, data.length) := by
    simp [exportToCSV, h]
  have hfmt : lowerStr "csv" = "csv" := rfl
  simp [exportData, hfmt, hok, Except.map]

/-- C5 witness: the empty record set exports as JSON with a zero count,
and a singleton set exports as CSV. -/
theorem claim_C5_witness :
    exportData "json" [] "t0" = .ok (.json (exportToJSON "t0" [] true) 0) ∧
    ([sampleRec] ≠ [] → exportData "csv" [sampleRec] "t0" =
      .ok (.csv (csvBlob [sampleRec]) 1)) :=
  ⟨(claim_C5 [] "t0").1, (claim_C5 [sampleRec] "t0").2.2.2.2⟩

/-- C6 counterexample: two supported renderings of the same US number —
international with `+` and bare national — are treated differently by the
client gate, so it does not accept all-or-none of a number's renderings. -/
theorem claim_C6_counterexample :
    isValidPhoneFormat "2125551234" = true ∧
    isValidPhoneFormat "+12125551234" = false := by decide

/-- C6 (amended): the client gate is invariant under everything the
cleaning step removes (spaces, hyphens, any non-digit/non-plus
characters) — two inputs with the same cleaned form always get the same
verdict — and it accepts all four renderings of a 10-digit Nigerian
national number; it is not invariant across international versus local
renderings of non-Nigerian numbers, so format-invariance of the backend
`validate` cannot be observed through the gate for those numbers. -/
theorem claim_C6 :
    (∀ s t : String, cleanPhone s = cleanPhone t →
      isValidPhoneFormat s = isValidPhoneFormat t) ∧
    (∀ d : List Char, d.length = 10 → digitsOnly d = true →
      isValidPhoneFormat (String.mk ('+' :: '2' :: '3' :: '4' :: d)) = true ∧
      isValidPhoneFormat (String.mk ('2' :: '3' :: '4' :: d)) = true ∧
      isValidPhoneFormat (String.mk ('0' :: d)) = true ∧
      isValidPhoneFormat (String.mk d) = true) := by
  constructor
  · intro s t hclean
    rw [isValid_eq_patterns, isValid_eq_patterns, hclean]
  · intro d hlen hdig
    have hkeep : d.filter keepPhoneChar = d := filter_keep_of_digits d hdig
    refine ⟨?_, ?_, ?_, ?_⟩
    · rw [isValid_eq_patterns]
      have hclean : (cleanPhone (String.mk ('+' :: '2' :: '3' :: '4' :: d))).data =
          '+' :: '2' :: '3' :: '4' :: d := by
        show List.filter keepPhoneChar ('+' :: '2' :: '3' :: '4' :: d) = _
        simp [keepPhoneChar, hkeep]
      rw [hclean]
      exact (patterns_iff_gateShape _).2 ⟨d, hlen, hdig, Or.inl rfl⟩
    · rw [isValid_eq_patterns]
      have hclean : (cleanPhone (String.mk ('2' :: '3' :: '4' :: d))).data =
          '2' :: '3' :: '4' :: d := by
        show List.filter keepPhoneChar ('2' :: '3' :: '4' :: d) = _
        simp [keepPhoneChar, hkeep]
      rw [hclean]
      exact (patterns_iff_gateShape _).2 ⟨d, hlen, hdig, Or.inr (Or.inl rfl)⟩
    · rw [isValid_eq_patterns]
      have hclean : (cleanPhone (String.mk ('0' :: d))).data = '0' :: d := by
        show List.filter keepPhoneChar ('0' :: d) = _
        simp [keepPhoneChar, hkeep]
      rw [hclean]
      exact (patterns_iff_gateShape _).2 ⟨d, hlen, hdig, Or.inr (Or.inr (Or.inl rfl))⟩
    · rw [isValid_eq_patterns]
      have hclean : (cleanPhone (String.mk d)).data = d := by
        show List.filter keepPhoneChar d = _
        exact hkeep
      rw [hclean]
      exact (patterns_iff_gateShape _).2 ⟨d, hlen, hdig, Or.inr (Or.inr (Or.inr rfl))⟩

/-- C6 witness: spaced and compact renderings of the Nigerian example
number clean to the same string and get the same verdict. -/
theorem claim_C6_witness :
    cleanPhone "+234 801 234 5678" = cleanPhone "+2348012345678" ∧
    isValidPhoneFormat "+234 801 234 5678" = isValidPhoneFormat "+2348012345678" :=
  ⟨by decide, claim_C6.1 "+234 801 234 5678" "+2348012345678" (by decide)⟩

/-- C7: at every repository state, `stats().total` equals the length of
the unpaginated full listing, and the valid/invalid counts partition that
same record set. -/
theorem claim_C7 (now : Nat) (st : List TrackedRecord) :
    (statsOf now st).total = (listAll st).length ∧
    (statsOf now st).valid + (statsOf now st).invalid = (statsOf now st).total := by
  constructor
  · show st.length = (listAll st).length
    rw [listAll, filter_search_empty]
    exact ((List.perm_insertionSort dateGE st).length_eq).symm
  · exact filter_length_partition (fun r => r.isValid) st

/-- C8 counterexample: both cited error paths surface a bare message
string with no machine-readable kind — an unsupported export format
throws `Error('Unsupported export format: xml')` and a failed HTTP
request without a server-supplied `error` field throws
`Error('HTTP error! status: 404')`. -/
theorem claim_C8_counterexample :
    exportData "xml" [] "t0" = .error "Unsupported export format: xml" ∧
    requestError 404 none = "HTTP error! status: 404" := ⟨rfl, rfl⟩

/-- C8 (amended): errors surfaced to the presentation layer carry only a
human-readable message string, not a structured kind — `exportData` on
any unsupported format throws exactly
`Unsupported export format: <format>`, and a failed HTTP request throws
the server's `error` string or `HTTP error! status: <status>`. -/
theorem claim_C8 (format : String) (data : List ExportRecord) (now : String)
    (h : lowerStr format ∉ exportFormats) :
    exportData format data now =
      .error ("Unsupported export format: " ++ format) ∧
    (∀ status : Nat, requestError status none =
      "HTTP error! status: " ++ toString status) := by
  constructor
  · have h1 : ¬lowerStr format = "csv" := fun he => h (by rw [he]; decide)
    have h2 : ¬lowerStr format = "json" := fun he => h (by rw [he]; decide)
    have h3 : ¬lowerStr format = "pdf" := fun he => h (by rw [he]; decide)
    have h4 : ¬lowerStr format = "excel" := fun he => h (by rw [he]; decide)
    simp [exportData, h1, h2, h3, h4]
  · intro status
    rfl

/-- C8 witness: the format `xml` is unsupported and surfaces only the
message string. -/
theorem claim_C8_witness :
    lowerStr "xml" ∉ exportFormats ∧
    exportData "xml" [sampleRec] "t0" =
      .error ("Unsupported export format: " ++ "xml") :=
  ⟨by decide, (claim_C8 "xml" [sampleRec] "t0" (by decide)).1⟩

/-- C9 counterexample: on the empty array `generateSummaryStats` returns
the early `{ total: 0, message: 'No data available' }` object, which
carries none of the claimed count fields, so the claim fails on the
empty array. -/
theorem claim_C9_counterexample :
    generateSummaryStats [] = .noData 0 "No data available" := rfl

/-- C9 (amended to nonempty arrays): `generateSummaryStats` returns
counts that partition the input — valid plus invalid equals total equals
the array's length — each of the three frequency distributions sums to
the total, and every bucket holds exactly the records mapped to it, with
records missing the field counted under `Unknown`. -/
theorem claim_C9 (data : List ExportRecord) (h : data ≠ []) :
    (generateSummaryStats data).validOf + (generateSummaryStats data).invalidOf =
      (generateSummaryStats data).totalOf ∧
    (generateSummaryStats data).totalOf = data.length ∧
    sumCounts (generateSummaryStats data).carriersOf = data.length ∧
    sumCounts (generateSummaryStats data).phoneTypesOf = data.length ∧
    sumCounts (generateSummaryStats data).regionsOf = data.length ∧
    (∀ key, lookupCount (generateSummaryStats data).carriersOf key =
      data.countP (fun r => orUnknown r.carrier == key)) ∧
    (∀ key, lookupCount (generateSummaryStats data).phoneTypesOf key =
      data.countP (fun r => orUnknown r.phone_type == key)) ∧
    (∀ key, lookupCount (generateSummaryStats data).regionsOf key =
      data.countP (fun r => orUnknown r.region == key)) := by
  have hg : generateSummaryStats data =
      .stats data.length
        (data.filter (fun r => r.is_valid)).length
        (data.filter (fun r => !r.is_valid)).length
        (data.foldl (fun m r => bump m (orUnknown r.carrier)) [])
        (data.foldl (fun m r => bump m (orUnknown r.phone_type)) [])
        (data.foldl (fun m r => bump m (orUnknown r.region)) []) := by
    rw [generateSummaryStats, if_neg h]
  rw [hg]
  simp only [SummaryStats.validOf, SummaryStats.invalidOf, SummaryStats.totalOf,
    SummaryStats.carriersOf, SummaryStats.phoneTypesOf, SummaryStats.regionsOf]
  refine ⟨filter_length_partition (fun r => r.is_valid) data, trivial, ?_, ?_, ?_, ?_, ?_, ?_⟩
  · rw [sumCounts_fold (fun r => orUnknown r.carrier) data []]
    simp [sumCounts]
  · rw [sumCounts_fold (fun r => orUnknown r.phone_type) data []]
    simp [sumCounts]
  · rw [sumCounts_fold (fun r => orUnknown r.region) data []]
    simp [sumCounts]
  · intro key
    rw [lookupCount_fold (fun r => orUnknown r.carrier) data key []]
    simp [lookupCount]
  · intro key
    rw [lookupCount_fold (fun r => orUnknown r.phone_type) data key []]
    simp [lookupCount]
  · intro key
    rw [lookupCount_fold (fun r => orUnknown r.region) data key []]
    simp [lookupCount]

/-- C9 witness: a two-record array with one empty carrier — the counts
partition, and the empty carrier lands in the `Unknown` bucket. -/
theorem claim_C9_witness :
    [sampleRec, sampleRec2] ≠ [] ∧
    (generateSummaryStats [sampleRec, sampleRec2]).validOf +
        (generateSummaryStats [sampleRec, sampleRec2]).invalidOf =
      (generateSummaryStats [sampleRec, sampleRec2]).totalOf ∧
    lookupCount (generateSummaryStats [sampleRec, sampleRec2]).carriersOf "Unknown" =
      [sampleRec, sampleRec2].countP (fun r => orUnknown r.carrier == "Unknown") :=
  ⟨by decide, (claim_C9 [sampleRec, sampleRec2] (by decide)).1,
    (claim_C9 [sampleRec, sampleRec2] (by decide)).2.2.2.2.2.1 "Unknown"⟩

/-- C10: the client gate accepts an input exactly when its cleaned form
(every character other than digits and `+` removed) matches one of
exactly four shapes — `+234` plus 10 digits, `234` plus 10 digits, `0`
plus 10 digits, or 10 bare digits — and consequently rejects the US
international number `+12125551234` before the backend `validate` is ever
reached. -/
theorem claim_C10 :
    (∀ s : String, isValidPhoneFormat s = true ↔ gateShape (cleanPhone s).data) ∧
    isValidPhoneFormat "+12125551234" = false := by
  constructor
  · intro s
    rw [isValid_eq_patterns]
    exact patterns_iff_gateShape (cleanPhone s).data
  · decide

end NumberTracker
